import Mathlib

/-!
Verification of the trading-app core: a shallow embedding of the
simulation, aggregation and ledger subsystem of `src/pages/Dashboard.jsx`
and `src/utils/marketSim.js`, with theorems checking the natural-language
specification against it.

Monetary values and prices are modeled as rationals (`ℚ`), the ideal-real
reading of the JavaScript numbers; `Number(x.toFixed(2))` is modeled as
rounding to two decimal places.  Wall-clock derived fields (order ids,
time labels) are threaded as opaque parameters or omitted where no claim
mentions them.
-/

/-- A JavaScript number as the source inspects it: either a finite rational
or one of the non-finite values (NaN, Infinity, -Infinity).  The source only
distinguishes the non-finite values through `Number.isFinite`, so a single
constructor covers them. -/
inductive JSNum where
  | fin (q : ℚ)
  | nonfinite
  deriving DecidableEq

/-- Models `Number(x.toFixed(2))`: round to two decimal places. -/
def round2 (x : ℚ) : ℚ := (round (x * 100) : ℚ) / 100

/-- Order side, `"BUY"` or `"SELL"` in the source. -/
inductive Side where
  | BUY
  | SELL
  deriving DecidableEq

/-- The structured cost breakdown returned by `calculateCharges`. -/
structure Charges where
  turnover : ℚ
  brokerage : ℚ
  stt : ℚ
  exchange : ℚ
  sebi : ℚ
  stamp : ℚ
  gst : ℚ
  dp : ℚ
  total : ℚ
  deriving DecidableEq

/-- `calculateCharges({side, qty, price})` from Dashboard.jsx (lines 65-89). -/
def calculateCharges (side : Side) (qty price : ℚ) : Charges :=
  let turnover := qty * price
  let brokerage := min (turnover * 0.0003) 20
  let stt := if side = Side.SELL then turnover * 0.00025 else 0
  let exchange := turnover * 0.0000345
  let sebi := turnover * 0.000001
  let stamp := if side = Side.BUY then turnover * 0.00003 else 0
  let gst := 0.18 * (brokerage + exchange)
  let dp := if side = Side.SELL then (13.5 : ℚ) else 0
  let total := brokerage + stt + exchange + sebi + stamp + gst + dp
  ⟨turnover, brokerage, stt, exchange, sebi, stamp, gst, dp, total⟩

/-- `simulateNextPrice(price, drift)` from marketSim.js.  The call to
`Math.random()` is modeled by the explicit parameter `rand`, a draw
from `[0, 1)`. -/
def simulateNextPrice (price : JSNum) (drift : ℚ) (rand : ℚ) : ℚ :=
  match price with
  | .nonfinite => 0
  | .fin p =>
    let volatility : ℚ := 0.00015
    let shock := (rand - 0.5) * volatility
    let percentMove := drift + shock
    round2 (p * (1 + percentMove))

/-- A holding as created/updated by `buyStock`: `{symbol, qty, avgBuy, sl, target}`.
`sl`/`target` are `none` when the stop-loss/target is unset (`null` in the
source). -/
structure Holding where
  symbol : String
  qty : ℚ
  avgBuy : ℚ
  sl : Option ℚ
  target : Option ℚ
  deriving DecidableEq

/-- An order-log entry.  The wall-clock derived `id` and `time` fields of the
source are omitted; no claim mentions them. -/
structure TradeOrder where
  symbol : String
  side : Side
  qty : ℚ
  price : ℚ
  status : String
  charges : ℚ
  deriving DecidableEq

/-- The ledger state: `cash`, `holdings` and `orders` of the Dashboard
component. -/
structure Ledger where
  cash : ℚ
  holdings : List Holding
  orders : List TradeOrder
  deriving DecidableEq

/-- The validation failures of the ledger operations (surfaced as `alert`s in
the source). -/
inductive TradeError where
  | invalidQuantity
  | insufficientFunds
  | noSuchHolding
  | insufficientQuantity
  deriving DecidableEq

/-- `pushOrder`: prepend the new order and keep the newest 60. -/
def pushOrder (o : TradeOrder) (orders : List TradeOrder) : List TradeOrder :=
  (o :: orders).take 60

/-- `buyStock(symbol, quantity, slPrice, targetPrice)` from Dashboard.jsx
(lines 659-739).  `prices` models the `stocks` array (symbol to live price);
`slPrice`/`targetPrice` are the parsed stop-loss/target inputs, `none` when
the input was empty or did not parse to a finite number.  Returns the updated
ledger and the validation error, if any. -/
def buyStock (prices : String → Option ℚ) (symbol : String) (quantity : JSNum)
    (slPrice targetPrice : Option ℚ) (st : Ledger) : Ledger × Option TradeError :=
  match prices symbol with
  | none => (st, none)
  | some price =>
    match quantity with
    | .nonfinite => (st, some .invalidQuantity)
    | .fin qty =>
      if qty ≤ 0 then (st, some .invalidQuantity)
      else
        let charges := calculateCharges Side.BUY qty price
        let totalDebit := qty * price + charges.total
        if st.cash < totalDebit then (st, some .insufficientFunds)
        else
          let order : TradeOrder :=
            ⟨symbol, Side.BUY, qty, round2 price, "FILLED", round2 charges.total⟩
          let newOrders := pushOrder order st.orders
          let newCash := round2 (st.cash - totalDebit)
          let newHoldings :=
            match st.holdings.find? (fun h => h.symbol == symbol) with
            | none => st.holdings ++ [⟨symbol, qty, round2 price, slPrice, targetPrice⟩]
            | some existing =>
              let newQty := existing.qty + qty
              let newAvg := (existing.qty * existing.avgBuy + qty * price) / newQty
              st.holdings.map (fun h =>
                if h.symbol == symbol then
                  { h with qty := newQty, avgBuy := round2 newAvg,
                           sl := existing.sl.or slPrice,
                           target := existing.target.or targetPrice }
                else h)
          (⟨newCash, newHoldings, newOrders⟩, none)

/-- `sellStock(symbol, quantity)` from Dashboard.jsx (lines 741-796).
The source validates against the `holdings` binding captured by the current
render closure while mutating through functional state updaters; so the
model takes the validation snapshot `snapHoldings` separately from the
`pending` ledger the updates apply to.  For a direct user-initiated sell
the two coincide (`snapHoldings = pending.holdings`). -/
def sellStock (snapHoldings : List Holding) (prices : String → Option ℚ)
    (symbol : String) (quantity : JSNum) (pending : Ledger) :
    Ledger × Option TradeError :=
  match prices symbol with
  | none => (pending, none)
  | some price =>
    match quantity with
    | .nonfinite => (pending, some .invalidQuantity)
    | .fin qty =>
      if qty ≤ 0 then (pending, some .invalidQuantity)
      else
        match snapHoldings.find? (fun h => h.symbol == symbol) with
        | none => (pending, some .noSuchHolding)
        | some existing =>
          if existing.qty < qty then (pending, some .insufficientQuantity)
          else
            let charges := calculateCharges Side.SELL qty price
            let grossCredit := qty * price
            let netCredit := grossCredit - charges.total
            let order : TradeOrder :=
              ⟨symbol, Side.SELL, qty, round2 price, "FILLED", round2 charges.total⟩
            let newOrders := pushOrder order pending.orders
            let newCash := round2 (pending.cash + netCredit)
            let newHoldings :=
              match pending.holdings.find? (fun h => h.symbol == symbol) with
              | none => pending.holdings
              | some h =>
                let newQty := h.qty - qty
                if newQty ≤ 0 then
                  pending.holdings.filter (fun x => x.symbol != symbol)
                else
                  pending.holdings.map (fun x =>
                    if x.symbol == symbol then { x with qty := newQty } else x)
            (⟨newCash, newHoldings, newOrders⟩, none)

/-- One iteration of the auto-exit `holdings.forEach` callback (Dashboard.jsx
lines 802-815): `h` comes from the cycle-start snapshot, the target check runs
before the stop-loss check, and each `sellStock` call validates against the
same snapshot while its updates accumulate on `pending`. -/
def autoExitStep (snapHoldings : List Holding) (prices : String → Option ℚ)
    (pending : Ledger) (h : Holding) : Ledger :=
  match prices h.symbol with
  | none => pending
  | some ltp =>
    let p1 :=
      match h.target with
      | some t =>
        if t ≤ ltp ∧ 0 < h.qty then
          (sellStock snapHoldings prices h.symbol (JSNum.fin h.qty) pending).1
        else pending
      | none => pending
    match h.sl with
    | some s =>
      if ltp ≤ s ∧ 0 < h.qty then
        (sellStock snapHoldings prices h.symbol (JSNum.fin h.qty) p1).1
      else p1
    | none => p1

/-- The auto-exit effect for one price-update cycle (Dashboard.jsx lines
799-817): scan the cycle-start holdings snapshot in order, selling on target
and stop-loss breaches. -/
def autoExitCycle (prices : String → Option ℚ) (st : Ledger) : Ledger :=
  if st.holdings.isEmpty then st
  else st.holdings.foldl (autoExitStep st.holdings prices) st

/-- An OHLC candle as built by the "build candles" effect (Dashboard.jsx
lines 560-621): `{id, time, open, high, low, close, ticks}`.  `id` (from
`Date.now()`) and the time label are abstracted to naturals. -/
structure Candle where
  id : ℕ
  time : ℕ
  «open» : ℚ
  high : ℚ
  low : ℚ
  close : ℚ
  ticks : ℕ
  deriving DecidableEq

/-- `CANDLE_TICKS = 6`, the seal threshold. -/
def CANDLE_TICKS : ℕ := 6

/-- Aggregator state for the selected instrument: the candle list (whose last
element is the open candle when one exists) and `candleRef.current`. -/
structure AggState where
  candles : List Candle
  current : Option Candle
  deriving DecidableEq

/-- `list.slice(-n)`: the last `n` elements. -/
def takeLast (n : ℕ) (l : List α) : List α := l.drop (l.length - n)

/-- One run of the build-candles effect body for a tick at `price` with time
label `time` and fresh id `tid` (`Date.now()` in the source): create the
first candle, or fold the tick into the open candle and seal-and-reopen once
its tick count reaches `CANDLE_TICKS`; closed paths truncate to the newest
300 candles. -/
def ingest (st : AggState) (price : ℚ) (time tid : ℕ) : AggState :=
  match st.current with
  | none =>
    let c : Candle := ⟨tid, time, price, price, price, price, 1⟩
    { candles := st.candles ++ [c], current := some c }
  | some current =>
    let updated : Candle :=
      { current with
          high := max current.high price,
          low := min current.low price,
          close := price,
          ticks := current.ticks + 1,
          time := time }
    let list := st.candles.dropLast ++ [updated]
    if CANDLE_TICKS ≤ updated.ticks then
      let next : Candle :=
        ⟨tid + 1, time, updated.close, updated.close, updated.close, updated.close, 0⟩
      { candles := takeLast 300 (list ++ [next]), current := some next }
    else
      { candles := takeLast 300 list, current := some updated }

/-- The aggregator state right after a symbol switch: empty history, no open
candle. -/
def initAggState : AggState := ⟨[], none⟩

/-- Folding a whole tick sequence into the aggregator, starting from the
reset state. -/
def ingestAll (inputs : List (ℚ × ℕ × ℕ)) : AggState :=
  inputs.foldl (fun st i => ingest st i.1 i.2.1 i.2.2) initAggState

/-- The candle invariant of the spec: low ≤ min(open, close) and
max(open, close) ≤ high. -/
def candleInv (c : Candle) : Prop :=
  c.low ≤ min c.«open» c.close ∧ max c.«open» c.close ≤ c.high

/-- The induction invariant for the aggregator: every candle in the history
satisfies `candleInv`, and so does the open candle. -/
def stateInv (st : AggState) : Prop :=
  (∀ c ∈ st.candles, candleInv c) ∧ (∀ c, st.current = some c → candleInv c)

/-- C7: for a fixed side, the fee total is strictly increasing in turnover:
whenever `q1 * p1 < q2 * p2`, the `calculateCharges` total at the first
quantity/price pair is strictly below the total at the second, including
across the brokerage cap. -/
theorem calculateCharges_total_strictMono (side : Side) (q1 p1 q2 p2 : ℚ)
    (h : q1 * p1 < q2 * p2) :
    (calculateCharges side q1 p1).total < (calculateCharges side q2 p2).total := by
  have hb : min (q1 * p1 * 0.0003) 20 ≤ min (q2 * p2 * 0.0003) 20 :=
    min_le_min (by nlinarith) le_rfl
  cases side <;> simp [calculateCharges] <;> linarith

/-- Witness for C7 at the concrete pairs (1, 1) and (2, 1). -/
theorem calculateCharges_total_strictMono_witness :
    (calculateCharges Side.BUY 1 1).total < (calculateCharges Side.BUY 2 1).total :=
  calculateCharges_total_strictMono Side.BUY 1 1 2 1 (by norm_num)

/-- C8: the price generator never fails.  A non-finite previous price yields
0; a finite previous price `p` yields `p * (1 + drift + shock)` rounded to
two decimals, where the shock `(rand - 0.5) * 0.00015` lies in
`[-0.000075, +0.000075]` for every draw `rand ∈ [0, 1)`. -/
theorem simulateNextPrice_spec (drift rand : ℚ) (h0 : 0 ≤ rand) (h1 : rand < 1) :
    simulateNextPrice JSNum.nonfinite drift rand = 0 ∧
    -0.000075 ≤ (rand - 0.5) * 0.00015 ∧ (rand - 0.5) * 0.00015 ≤ 0.000075 ∧
    ∀ p : ℚ, simulateNextPrice (JSNum.fin p) drift rand =
      round2 (p * (1 + (drift + (rand - 0.5) * 0.00015))) := by
  refine ⟨rfl, by nlinarith, by nlinarith, fun p => rfl⟩

/-- Witness for C8 at drift 0, random draw 1/2, previous price 100. -/
theorem simulateNextPrice_spec_witness :
    simulateNextPrice JSNum.nonfinite 0 (1/2) = 0 ∧
    simulateNextPrice (JSNum.fin 100) 0 (1/2) =
      round2 (100 * (1 + (0 + ((1/2 : ℚ) - 0.5) * 0.00015))) :=
  ⟨(simulateNextPrice_spec 0 (1/2) (by norm_num) (by norm_num)).1,
   (simulateNextPrice_spec 0 (1/2) (by norm_num) (by norm_num)).2.2.2 100⟩

/-- C2: a buy with a positive finite quantity whose total debit
`qty * price + charges.total` exceeds the available cash fails with
insufficient funds and returns the ledger unchanged: same cash, same
holdings, same order log. -/
theorem buyStock_insufficientFunds (prices : String → Option ℚ) (symbol : String)
    (q p : ℚ) (slPrice targetPrice : Option ℚ) (st : Ledger)
    (hq : 0 < q) (hp : prices symbol = some p)
    (hover : st.cash < q * p + (calculateCharges Side.BUY q p).total) :
    buyStock prices symbol (JSNum.fin q) slPrice targetPrice st =
      (st, some TradeError.insufficientFunds) := by
  simp [buyStock, hp, hover, not_le.mpr hq]

/-- Witness for C2: cash 0 cannot absorb a buy of 1 share at price 100. -/
theorem buyStock_insufficientFunds_witness :
    buyStock (fun _ => some 100) "X" (JSNum.fin 1) none none ⟨0, [], []⟩ =
      (⟨0, [], []⟩, some TradeError.insufficientFunds) :=
  buyStock_insufficientFunds (fun _ => some 100) "X" 1 100 none none ⟨0, [], []⟩
    (by norm_num) rfl (by simp [calculateCharges]; norm_num [min_def])

/-- C9: the sell operation validates its quantity argument: a sell whose
quantity is not a positive finite number is rejected before any holding
lookup (the result does not depend on the holdings snapshot at all) and
leaves cash, holdings and the order log unchanged. -/
theorem sellStock_invalidQuantity (snap1 snap2 : List Holding)
    (prices : String → Option ℚ) (symbol : String) (quantity : JSNum)
    (p : ℚ) (st : Ledger)
    (hq : ∀ q : ℚ, quantity = JSNum.fin q → q ≤ 0)
    (hp : prices symbol = some p) :
    sellStock snap1 prices symbol quantity st = (st, some TradeError.invalidQuantity) ∧
    sellStock snap1 prices symbol quantity st = sellStock snap2 prices symbol quantity st := by
  cases quantity with
  | nonfinite => simp [sellStock, hp]
  | fin q => have hq0 := hq q rfl; simp [sellStock, hp, hq0]

/-- Witness for C9: a sell of quantity 0 is rejected with the ledger intact,
independently of whether the symbol is held. -/
theorem sellStock_invalidQuantity_witness :
    sellStock [] (fun _ => some 100) "A" (JSNum.fin 0) ⟨1000, [], []⟩ =
      (⟨1000, [], []⟩, some TradeError.invalidQuantity) ∧
    sellStock [] (fun _ => some 100) "A" (JSNum.fin 0) ⟨1000, [], []⟩ =
      sellStock [⟨"A", 5, 100, none, none⟩] (fun _ => some 100) "A" (JSNum.fin 0)
        ⟨1000, [], []⟩ :=
  sellStock_invalidQuantity [] [⟨"A", 5, 100, none, none⟩] (fun _ => some 100) "A"
    (JSNum.fin 0) 100 ⟨1000, [], []⟩
    (by intro q h; injection h with h'; subst h'; norm_num) rfl

/-- C10: a successful sell can strictly decrease cash.  Selling 1 held share
at price 10 yields SELL-side charges whose total (dominated by the flat
dp = 13.5) exceeds the gross credit 10, so netCredit is negative and cash
drops from 100000 to 99996.49; no floor at zero net credit is applied. -/
theorem sellStock_can_decrease_cash :
    sellStock [⟨"A", 1, 100, none, none⟩] (fun _ => some 10) "A" (JSNum.fin 1)
        ⟨100000, [⟨"A", 1, 100, none, none⟩], []⟩ =
      (⟨99996.49, [], [⟨"A", Side.SELL, 1, 10, "FILLED", 13.51⟩]⟩, none) ∧
    (1 : ℚ) * 10 - (calculateCharges Side.SELL 1 10).total < 0 ∧
    (99996.49 : ℚ) < 100000 := by
  refine ⟨?_, by simp [calculateCharges]; norm_num [min_def], by norm_num⟩
  simp [sellStock, calculateCharges, pushOrder, round2, min_def]
  norm_num [round_eq]

/-- C3: starting from cash 100000 and no holding, buying 10 shares at price
500 computes the BUY-side charges on turnover 5000 (brokerage 1.5, stt 0,
exchange 0.1725, sebi 0.005, stamp 0.15, gst 0.18*(1.5+0.1725), dp 0),
debits cash to 94997.87 after rounding to two decimals, and creates a holding
with averageBuyPrice 500 and quantity 10. -/
theorem buyStock_scenario :
    (calculateCharges Side.BUY 10 500).turnover = 5000 ∧
    (calculateCharges Side.BUY 10 500).brokerage = 1.5 ∧
    (calculateCharges Side.BUY 10 500).stt = 0 ∧
    (calculateCharges Side.BUY 10 500).exchange = 0.1725 ∧
    (calculateCharges Side.BUY 10 500).sebi = 0.005 ∧
    (calculateCharges Side.BUY 10 500).stamp = 0.15 ∧
    (calculateCharges Side.BUY 10 500).gst = 0.18 * (1.5 + 0.1725) ∧
    (calculateCharges Side.BUY 10 500).dp = 0 ∧
    buyStock (fun _ => some 500) "X" (JSNum.fin 10) none none ⟨100000, [], []⟩ =
      (⟨94997.87, [⟨"X", 10, 500, none, none⟩],
        [⟨"X", Side.BUY, 10, 500, "FILLED", 2.13⟩]⟩, none) := by
  refine ⟨?_, ?_, ?_, ?_, ?_, ?_, ?_, ?_, ?_⟩ <;>
    (simp [buyStock, calculateCharges, pushOrder, round2, min_def]
     try norm_num [round_eq])

/-- Helper: mapping a symbol-preserving function across a holdings list
commutes with `find?` on a symbol predicate. -/
theorem find_map_invariant {α : Type} (p : α → Bool) (f : α → α)
    (hf : ∀ a, p (f a) = p a) :
    ∀ (l : List α) (x : α), l.find? p = some x → (l.map f).find? p = some (f x) := by
  intro l
  induction l with
  | nil => intro x hx; simp [List.find?] at hx
  | cons a t ih =>
    intro x hx
    by_cases hpa : p a
    · rw [List.find?_cons_of_pos t hpa] at hx
      cases hx
      simp only [List.map_cons]
      rw [List.find?_cons_of_pos _ (by rw [hf]; exact hpa)]
    · rw [List.find?_cons_of_neg t hpa] at hx
      simp only [List.map_cons]
      rw [List.find?_cons_of_neg _ (by rw [hf]; exact hpa)]
      exact ih x hx

/-- C4 counterexample: the claim says the post-buy average equals the exact
cost-weighted mean.  Buying 1 share at 100 and then 2 shares at 200 stores
averageBuyPrice 166.67, but the exact mean (1*100 + 2*200)/(1+2) = 500/3 is
not 166.67: the source rounds the mean to two decimals before storing it. -/
theorem buyStock_avg_rounding_counterexample :
    (buyStock (fun _ => some 200) "A" (JSNum.fin 2) none none
        (buyStock (fun _ => some 100) "A" (JSNum.fin 1) none none
          ⟨100000, [], []⟩).1).1.holdings =
      [⟨"A", 3, 166.67, none, none⟩] ∧
    (166.67 : ℚ) ≠ (1 * 100 + 2 * 200) / (1 + 2) := by
  constructor
  · simp [buyStock, calculateCharges, pushOrder, round2, min_def]
    norm_num [round_eq]
  · norm_num

/-- C4 (amended): a successful buy of quantity q at price p into an existing
holding leaves a holding with quantity `oldQty + q` and average buy price
equal to the cost-weighted mean `(oldQty*oldAvg + q*p)/(oldQty + q)` rounded
to two decimal places. -/
theorem buyStock_existing_holding_update (prices : String → Option ℚ)
    (symbol : String) (q p : ℚ) (slPrice targetPrice : Option ℚ) (st : Ledger)
    (existing : Holding)
    (hq : 0 < q) (hp : prices symbol = some p)
    (hfind : st.holdings.find? (fun h => h.symbol == symbol) = some existing)
    (hcash : q * p + (calculateCharges Side.BUY q p).total ≤ st.cash) :
    ((buyStock prices symbol (JSNum.fin q) slPrice targetPrice st).1).holdings.find?
        (fun h => h.symbol == symbol) =
      some { existing with
              qty := existing.qty + q,
              avgBuy := round2 ((existing.qty * existing.avgBuy + q * p) /
                          (existing.qty + q)),
              sl := existing.sl.or slPrice,
              target := existing.target.or targetPrice } := by
  have hnotlt : ¬ st.cash < q * p + (calculateCharges Side.BUY q p).total :=
    not_lt.mpr hcash
  have hsym : (existing.symbol == symbol) = true := by
    have hs := List.find?_some hfind
    simpa using hs
  simp only [buyStock, hp, if_neg (not_le.mpr hq), if_neg hnotlt, hfind]
  refine (find_map_invariant (fun h => h.symbol == symbol)
    (fun h => if h.symbol == symbol then
        { h with qty := existing.qty + q,
                 avgBuy := round2 ((existing.qty * existing.avgBuy + q * p) /
                             (existing.qty + q)),
                 sl := existing.sl.or slPrice,
                 target := existing.target.or targetPrice }
      else h)
    (fun a => by by_cases h : (a.symbol == symbol) = true <;> simp [h])
    st.holdings existing hfind).trans ?_
  simp [hsym]

/-- Witness for C4 (amended): buying 10 at 100 and then 10 at 200 yields
average 150 and quantity 20. -/
theorem buyStock_existing_holding_update_witness :
    ((buyStock (fun _ => some 200) "A" (JSNum.fin 10) none none
        ⟨100000, [⟨"A", 10, 100, none, none⟩], []⟩).1).holdings.find?
      (fun h => h.symbol == "A") = some ⟨"A", 20, 150, none, none⟩ := by
  have h := buyStock_existing_holding_update (fun _ => some 200) "A" 10 200 none none
      ⟨100000, [⟨"A", 10, 100, none, none⟩], []⟩ ⟨"A", 10, 100, none, none⟩
      (by norm_num) rfl (by simp)
      (by simp [calculateCharges]; norm_num [min_def])
  norm_num [round2, round_eq, Option.or] at h
  exact h

/-- C1 (code behavior at the failing input): with one holding of 1 share of
"A" (avgBuy 100, stopLoss 100, target 100) and live price 100, both the
target and the stop-loss condition trigger in the same cycle.  The monitor
validates both sells against the stale cycle-start snapshot, so it appends
TWO sell orders and credits cash TWICE (86.44 then 172.88), instead of the
single sell (final cash 86.44) the claim describes; only the holdings list
escapes double mutation. -/
theorem autoExitCycle_double_sell :
    autoExitCycle (fun _ => some 100) ⟨0, [⟨"A", 1, 100, some 100, some 100⟩], []⟩ =
      ⟨172.88, [], [⟨"A", Side.SELL, 1, 100, "FILLED", 13.56⟩,
                    ⟨"A", Side.SELL, 1, 100, "FILLED", 13.56⟩]⟩ ∧
    (172.88 : ℚ) ≠
      round2 (0 + (1 * 100 - (calculateCharges Side.SELL 1 100).total)) := by
  constructor
  · simp [autoExitCycle, autoExitStep, sellStock, calculateCharges, pushOrder,
      round2, min_def]
    norm_num [round_eq]
  · simp [calculateCharges, round2, min_def]
    norm_num [round_eq]

/-- Helper: the branch equation of `ingest` when no open candle exists. -/
theorem ingest_none (st : AggState) (price : ℚ) (time tid : ℕ)
    (hc : st.current = none) :
    ingest st price time tid =
      { candles := st.candles ++ [⟨tid, time, price, price, price, price, 1⟩],
        current := some ⟨tid, time, price, price, price, price, 1⟩ } := by
  simp [ingest, hc]

/-- Helper: the branch equation of `ingest` when the open candle seals. -/
theorem ingest_seal_eq (st : AggState) (price : ℚ) (time tid : ℕ) (c : Candle)
    (hc : st.current = some c) (ht : CANDLE_TICKS ≤ c.ticks + 1) :
    ingest st price time tid =
      { candles := takeLast 300 ((st.candles.dropLast ++
          [{ c with high := max c.high price, low := min c.low price,
                    close := price, ticks := c.ticks + 1, time := time }]) ++
          [⟨tid + 1, time, price, price, price, price, 0⟩]),
        current := some ⟨tid + 1, time, price, price, price, price, 0⟩ } := by
  simp [ingest, hc, ht]

/-- Helper: the branch equation of `ingest` when the open candle stays open. -/
theorem ingest_no_seal_eq (st : AggState) (price : ℚ) (time tid : ℕ) (c : Candle)
    (hc : st.current = some c) (ht : ¬ CANDLE_TICKS ≤ c.ticks + 1) :
    ingest st price time tid =
      { candles := takeLast 300 (st.candles.dropLast ++
          [{ c with high := max c.high price, low := min c.low price,
                    close := price, ticks := c.ticks + 1, time := time }]),
        current := some ({ c with
                           high := max c.high price, low := min c.low price,
                           close := price, ticks := c.ticks + 1,
                           time := time }) } := by
  simp [ingest, hc, ht]

/-- Helper: slicing a list to its last 300 elements keeps a final pair. -/
theorem takeLast_append_pair {α : Type} (l : List α) (a b : α) :
    ∃ pre, takeLast 300 (l ++ [a, b]) = pre ++ [a, b] := by
  refine ⟨l.drop ((l ++ [a, b]).length - 300), ?_⟩
  have hk : (l ++ [a, b]).length - 300 ≤ l.length := by
    simp [List.length_append]
  exact List.drop_append_of_le_length hk

/-- C5: when the open candle's tick count reaches the threshold 6 on an
ingest, that candle (with the tick folded in: ticks = c.ticks + 1, close =
price) is sealed into the history, and exactly one new open candle follows
it, with open = high = low = close all equal to the sealed candle's close
and tick count 0; the history gains exactly these two entries at its end,
so no second seal happens within the same ingested tick. -/
theorem ingest_seal_and_reopen (st : AggState) (price : ℚ) (time tid : ℕ)
    (c : Candle) (hc : st.current = some c) (ht : CANDLE_TICKS ≤ c.ticks + 1) :
    ∃ pre,
      (ingest st price time tid).candles =
        pre ++ [{ c with high := max c.high price, low := min c.low price,
                         close := price, ticks := c.ticks + 1, time := time },
                ⟨tid + 1, time, price, price, price, price, 0⟩] ∧
      (ingest st price time tid).current =
        some ⟨tid + 1, time, price, price, price, price, 0⟩ := by
  rw [ingest_seal_eq st price time tid c hc ht]
  obtain ⟨pre, hpre⟩ := takeLast_append_pair st.candles.dropLast
    { c with high := max c.high price, low := min c.low price,
             close := price, ticks := c.ticks + 1, time := time }
    ⟨tid + 1, time, price, price, price, price, 0⟩
  refine ⟨pre, ?_, rfl⟩
  simp only [List.append_assoc, List.singleton_append]
  exact hpre

/-- Witness for C5: a candle with 5 ticks seals on the next ingest. -/
theorem ingest_seal_and_reopen_witness :
    ∃ pre,
      (ingest ⟨[⟨0, 0, 10, 12, 9, 11, 5⟩], some ⟨0, 0, 10, 12, 9, 11, 5⟩⟩ 11 1 7).candles =
        pre ++ [{ (⟨0, 0, 10, 12, 9, 11, 5⟩ : Candle) with
                    high := max (12 : ℚ) 11, low := min (9 : ℚ) 11,
                    close := (11 : ℚ), ticks := 5 + 1, time := 1 },
                ⟨7 + 1, 1, 11, 11, 11, 11, 0⟩] ∧
      (ingest ⟨[⟨0, 0, 10, 12, 9, 11, 5⟩], some ⟨0, 0, 10, 12, 9, 11, 5⟩⟩ 11 1 7).current =
        some ⟨7 + 1, 1, 11, 11, 11, 11, 0⟩ :=
  ingest_seal_and_reopen ⟨[⟨0, 0, 10, 12, 9, 11, 5⟩], some ⟨0, 0, 10, 12, 9, 11, 5⟩⟩
    11 1 7 ⟨0, 0, 10, 12, 9, 11, 5⟩ rfl (by decide)

/-- Helper: a candle whose four OHLC fields coincide satisfies the
invariant. -/
theorem candleInv_const (i t : ℕ) (p : ℚ) (k : ℕ) :
    candleInv ⟨i, t, p, p, p, p, k⟩ := by
  simp [candleInv]

/-- Helper: folding one tick into an open candle preserves the invariant. -/
theorem candleInv_update (c : Candle) (price : ℚ) (t : ℕ) (h : candleInv c) :
    candleInv { c with high := max c.high price, low := min c.low price,
                       close := price, ticks := c.ticks + 1, time := t } := by
  obtain ⟨h1, h2⟩ := h
  have hlo : c.low ≤ c.«open» := le_trans h1 (min_le_left _ _)
  have hoh : c.«open» ≤ c.high := le_trans (le_max_left _ _) h2
  constructor
  · exact le_min (le_trans (min_le_left _ _) hlo) (min_le_right _ _)
  · exact max_le (le_trans hoh (le_max_left _ _)) (le_max_right _ _)

/-- Helper: the last-300 slice is a subset of the list. -/
theorem takeLast_subset {α : Type} (n : ℕ) (l : List α) : takeLast n l ⊆ l :=
  List.drop_subset _ l

/-- Helper: the candle-list component of the no-open-candle branch. -/
theorem ingest_none_candles (st : AggState) (price : ℚ) (time tid : ℕ)
    (hc : st.current = none) :
    (ingest st price time tid).candles =
      st.candles ++ [⟨tid, time, price, price, price, price, 1⟩] := by
  rw [ingest_none st price time tid hc]

/-- Helper: the open-candle component of the no-open-candle branch. -/
theorem ingest_none_current (st : AggState) (price : ℚ) (time tid : ℕ)
    (hc : st.current = none) :
    (ingest st price time tid).current =
      some ⟨tid, time, price, price, price, price, 1⟩ := by
  rw [ingest_none st price time tid hc]

/-- Helper: the candle-list component of the seal branch. -/
theorem ingest_seal_candles (st : AggState) (price : ℚ) (time tid : ℕ)
    (c : Candle) (hc : st.current = some c) (ht : CANDLE_TICKS ≤ c.ticks + 1) :
    (ingest st price time tid).candles =
      takeLast 300 ((st.candles.dropLast ++
          [{ c with high := max c.high price, low := min c.low price,
                    close := price, ticks := c.ticks + 1, time := time }]) ++
          [⟨tid + 1, time, price, price, price, price, 0⟩]) := by
  rw [ingest_seal_eq st price time tid c hc ht]

/-- Helper: the open-candle component of the seal branch. -/
theorem ingest_seal_current (st : AggState) (price : ℚ) (time tid : ℕ)
    (c : Candle) (hc : st.current = some c) (ht : CANDLE_TICKS ≤ c.ticks + 1) :
    (ingest st price time tid).current =
      some ⟨tid + 1, time, price, price, price, price, 0⟩ := by
  rw [ingest_seal_eq st price time tid c hc ht]

/-- Helper: the candle-list component of the no-seal branch. -/
theorem ingest_no_seal_candles (st : AggState) (price : ℚ) (time tid : ℕ)
    (c : Candle) (hc : st.current = some c) (ht : ¬ CANDLE_TICKS ≤ c.ticks + 1) :
    (ingest st price time tid).candles =
      takeLast 300 (st.candles.dropLast ++
          [{ c with high := max c.high price, low := min c.low price,
                    close := price, ticks := c.ticks + 1, time := time }]) := by
  rw [ingest_no_seal_eq st price time tid c hc ht]

/-- Helper: the open-candle component of the no-seal branch. -/
theorem ingest_no_seal_current (st : AggState) (price : ℚ) (time tid : ℕ)
    (c : Candle) (hc : st.current = some c) (ht : ¬ CANDLE_TICKS ≤ c.ticks + 1) :
    (ingest st price time tid).current =
      some { c with high := max c.high price, low := min c.low price,
                    close := price, ticks := c.ticks + 1, time := time } := by
  rw [ingest_no_seal_eq st price time tid c hc ht]

/-- Helper: one ingest preserves the aggregator invariant. -/
theorem stateInv_ingest (st : AggState) (price : ℚ) (time tid : ℕ)
    (h : stateInv st) : stateInv (ingest st price time tid) := by
  obtain ⟨hall, hcur⟩ := h
  cases hcs : st.current with
  | none =>
    refine ⟨?_, ?_⟩
    · intro c hc
      rw [ingest_none_candles st price time tid hcs] at hc
      rcases List.mem_append.mp hc with h1 | h1
      · exact hall c h1
      · rw [List.mem_singleton] at h1
        subst h1
        exact candleInv_const _ _ _ _
    · intro c hc
      rw [ingest_none_current st price time tid hcs, Option.some_inj] at hc
      subst hc
      exact candleInv_const _ _ _ _
  | some cur =>
    have hic := hcur cur hcs
    by_cases ht : CANDLE_TICKS ≤ cur.ticks + 1
    · refine ⟨?_, ?_⟩
      · intro c hc
        rw [ingest_seal_candles st price time tid cur hcs ht] at hc
        have hc2 := takeLast_subset _ _ hc
        rcases List.mem_append.mp hc2 with h1 | h1
        · rcases List.mem_append.mp h1 with h2 | h2
          · exact hall c (List.dropLast_subset _ h2)
          · rw [List.mem_singleton] at h2
            subst h2
            exact candleInv_update cur price time hic
        · rw [List.mem_singleton] at h1
          subst h1
          exact candleInv_const _ _ _ _
      · intro c hc
        rw [ingest_seal_current st price time tid cur hcs ht, Option.some_inj] at hc
        subst hc
        exact candleInv_const _ _ _ _
    · refine ⟨?_, ?_⟩
      · intro c hc
        rw [ingest_no_seal_candles st price time tid cur hcs ht] at hc
        have hc2 := takeLast_subset _ _ hc
        rcases List.mem_append.mp hc2 with h1 | h1
        · exact hall c (List.dropLast_subset _ h1)
        · rw [List.mem_singleton] at h1
          subst h1
          exact candleInv_update cur price time hic
      · intro c hc
        rw [ingest_no_seal_current st price time tid cur hcs ht, Option.some_inj] at hc
        subst hc
        exact candleInv_update cur price time hic

/-- Helper: folding any tick sequence preserves the aggregator invariant. -/
theorem stateInv_foldl (inputs : List (ℚ × ℕ × ℕ)) :
    ∀ st : AggState, stateInv st →
      stateInv (inputs.foldl (fun s i => ingest s i.1 i.2.1 i.2.2) st) := by
  induction inputs with
  | nil => intro st h; simpa using h
  | cons a t ih =>
    intro st h
    simp only [List.foldl_cons]
    exact ih _ (stateInv_ingest st a.1 a.2.1 a.2.2 h)

/-- C6: after any sequence of ingests from the reset state, every candle in
the history (the open candle included, as the last list entry) satisfies
low ≤ min(open, close) and max(open, close) ≤ high. -/
theorem ingestAll_candleInv (inputs : List (ℚ × ℕ × ℕ)) (c : Candle)
    (hc : c ∈ (ingestAll inputs).candles) :
    c.low ≤ min c.«open» c.close ∧ max c.«open» c.close ≤ c.high :=
  (stateInv_foldl inputs initAggState
    ⟨by simp [initAggState], by simp [initAggState]⟩).1 c hc

/-- Witness for C6: two ticks at price 10 leave one open candle in history,
and its fields satisfy the OHLC invariant. -/
theorem ingestAll_candleInv_witness :
    (⟨0, 1, 10, 10, 10, 10, 2⟩ : Candle).low ≤
        min (⟨0, 1, 10, 10, 10, 10, 2⟩ : Candle).«open»
          (⟨0, 1, 10, 10, 10, 10, 2⟩ : Candle).close ∧
      max (⟨0, 1, 10, 10, 10, 10, 2⟩ : Candle).«open»
          (⟨0, 1, 10, 10, 10, 10, 2⟩ : Candle).close ≤
        (⟨0, 1, 10, 10, 10, 10, 2⟩ : Candle).high :=
  ingestAll_candleInv [(10, 0, 0), (10, 1, 1)] ⟨0, 1, 10, 10, 10, 10, 2⟩
    (by simp [ingestAll, ingest, initAggState, takeLast, CANDLE_TICKS])
